import Mathlib

/-!
Shallow embedding of the rewardPoints wallet service (Go + PostgreSQL).

Source layout:
* internal/models/models.go : domain records (Wallet, LedgerEntry, TxReq, TxResp, BalResp)
* internal/db/db.go         : Store.ExecuteTransfer, GetWalletBalance, GetLedgerEntries,
                              GetWalletByOwnerAndAsset, GetTreasuryWallet, findByIKey
* internal/handler/handler.go : HTTP handlers TopUp, Bonus, Spend, GetBalance, GetLedger
* seed.sql                  : schema constraints (balance >= 0 CHECK, unique
                              (idempotency_key, entry_type) index, tx_type CHECK) and seed rows

Modelling conventions:
* The PostgreSQL database is modelled as an explicit `StoreState` value; each store
  method is a pure function of that state.  A statement sequence inside one SQL
  transaction either commits (new state) or rolls back (state unchanged), matching
  the `defer tx.Rollback` / `tx.Commit` structure of the Go code.
* Go `int` and `int64` become `Int`.  Balance arithmetic is performed by PostgreSQL
  on BIGINT columns, which raises an error outside `[-2^63, 2^63-1]` and on the
  `CHECK (balance >= 0)` constraint; a failed statement aborts the transaction.
  The wallet UPDATE is therefore modelled as `applyUpd`, returning `none` when the
  CHECK or the BIGINT range would reject the new value of any modified row.
* `uuid.New().String()` is modelled by passing the generated group id `gid` as an
  explicit argument; its universal uniqueness becomes the `gidFresh` hypothesis of
  the step relation.
* `created_at` timestamps are not modelled; `ORDER BY created_at DESC` on the
  append-only ledger is modelled as the reverse of insertion order.
-/

/-- internal/models/models.go: AssetType. -/
structure AssetType where
  id : Int
  code : String
  name : String
deriving DecidableEq

/-- internal/models/models.go: Wallet (CreatedAt omitted, never read). -/
structure Wallet where
  id : Int
  ownerID : Int
  assetTypeID : Int
  balance : Int
deriving DecidableEq

/-- entry_type column: CHECK (entry_type IN (CREDIT, DEBIT)). -/
inductive EntryType where
  | CREDIT
  | DEBIT
deriving DecidableEq

/-- internal/models/models.go: LedgerEntry (CreatedAt omitted, ordering modelled
by position in the append-only list). -/
structure LedgerEntry where
  id : Int
  txGroupID : String
  idempotencyKey : String
  walletID : Int
  entryType : EntryType
  amount : Int
  txType : String
  desc : String
deriving DecidableEq

/-- internal/models/models.go: TxResp. -/
structure TxResp where
  txGroupID : String
  idempotencyKey : String
  status : String
  entries : List LedgerEntry
deriving DecidableEq

/-- internal/models/models.go: BalResp. -/
structure BalResp where
  walletID : Int
  ownerID : Int
  assetCode : String
  balance : Int
deriving DecidableEq

/-- internal/models/models.go: TxReq. -/
structure TxReq where
  idempotencyKey : String
  userID : Int
  assetCode : String
  amount : Int
  desc : String
deriving DecidableEq

/-- internal/db/db.go error variables, plus `StoreFailure` for any wrapped
database error (constraint violation, overflow); db.go has exactly these four
named error values and otherwise returns wrapped `fmt.Errorf` errors. -/
inductive DBErr where
  | InsufficientBalance
  | WalletNotFound
  | InvalidAmount
  | MissingIdempotency
  | StoreFailure
deriving DecidableEq

/-- The durable database state behind `Store` (tables asset_types, wallets,
ledger_entries; `nextEntryID` models the BIGSERIAL sequence of ledger_entries). -/
structure StoreState where
  assetTypes : List AssetType
  wallets : List Wallet
  entries : List LedgerEntry
  nextEntryID : Int
deriving DecidableEq

/-- SELECT ... FROM wallets WHERE id = $1 (id is the primary key). -/
def findWallet (ws : List Wallet) (wid : Int) : Option Wallet :=
  ws.find? (fun w => w.id == wid)

/-- SELECT ... FROM asset_types WHERE id = $1. -/
def findAsset (as_ : List AssetType) (aid : Int) : Option AssetType :=
  as_.find? (fun a => a.id == aid)

/-- db.go findByIKey: SELECT ... FROM ledger_entries WHERE idempotency_key = $1
ORDER BY entry_type.  On the VARCHAR column the value CREDIT sorts before DEBIT;
with the unique (idempotency_key, entry_type) index at most one row of each kind
exists, so the sort is modelled as credits followed by debits. -/
def findByIKey (es : List LedgerEntry) (key : String) : List LedgerEntry :=
  let matched := es.filter (fun e => e.idempotencyKey == key)
  matched.filter (fun e => e.entryType == .CREDIT) ++
    matched.filter (fun e => e.entryType == .DEBIT)

/-- Go locals fst, snd in ExecuteTransfer: fst, snd := fromID, toID; if fst > snd
then they are swapped.  fstID is the smaller identifier. -/
def fstID (fromID toID : Int) : Int :=
  if fromID > toID then toID else fromID

/-- The larger identifier of the swapped pair (Go local snd). -/
def sndID (fromID toID : Int) : Int :=
  if fromID > toID then fromID else toID

/-- Row locks acquired by the two SELECT ... FOR UPDATE statements, in
acquisition order.  When both statements target the same row (fromID = toID)
the transaction already holds the lock and only one acquisition happens. -/
def lockList (fromID toID : Int) : List Int :=
  if fstID fromID toID = sndID fromID toID then [fstID fromID toID]
  else [fstID fromID toID, sndID fromID toID]

/-- Go: srcBal := fstBal; if fromID == snd then srcBal = sndBal. -/
def srcBalOf (fromID toID : Int) (wFst wSnd : Wallet) : Int :=
  if fromID = sndID fromID toID then wSnd.balance else wFst.balance

/-- seed.sql: CHECK (tx_type IN (TOPUP, BONUS, SPEND)) on ledger_entries. -/
def validTxType (t : String) : Bool :=
  t == "TOPUP" || t == "BONUS" || t == "SPEND"

/-- seed.sql: unique index idx_ledger_idempotency on
(idempotency_key, entry_type); an INSERT hitting it fails. -/
def insertConflict (es : List LedgerEntry) (key : String) (t : EntryType) : Bool :=
  es.any (fun e => e.idempotencyKey == key && e.entryType == t)

/-- A row produced by INSERT INTO ledger_entries ... RETURNING. -/
def mkEntry (eid : Int) (gid iKey : String) (wid : Int) (t : EntryType)
    (amt : Int) (txType desc : String) : LedgerEntry :=
  { id := eid, txGroupID := gid, idempotencyKey := iKey, walletID := wid,
    entryType := t, amount := amt, txType := txType, desc := desc }

/-- Largest BIGINT value. -/
def maxInt64 : Int := 2 ^ 63 - 1

/-- One row of UPDATE wallets SET balance = balance + d WHERE id = wid. -/
def updRow (wid d : Int) (w : Wallet) : Wallet :=
  if w.id = wid then { w with balance := w.balance + d } else w

/-- UPDATE wallets SET balance = balance + d WHERE id = wid.  PostgreSQL
re-checks CHECK (balance >= 0) and the BIGINT range on every modified row and
fails the statement (aborting the transaction) if either is violated. -/
def applyUpd (ws : List Wallet) (wid d : Int) : Option (List Wallet) :=
  if ∀ w ∈ ws.map (updRow wid d), w.id = wid → 0 ≤ w.balance ∧ w.balance ≤ maxInt64 then
    some (ws.map (updRow wid d))
  else none

instance {ε α : Type} [DecidableEq ε] [DecidableEq α] : DecidableEq (Except ε α) := fun
  | .error a, .error b =>
    if h : a = b then .isTrue (by rw [h])
    else .isFalse (by intro hc; cases hc; exact h rfl)
  | .error _, .ok _ => .isFalse (by intro h; cases h)
  | .ok _, .error _ => .isFalse (by intro h; cases h)
  | .ok a, .ok b =>
    if h : a = b then .isTrue (by rw [h])
    else .isFalse (by intro hc; cases hc; exact h rfl)

/-- Result of one ExecuteTransfer call: the returned value, the database state
after commit or rollback, and the row locks taken, in acquisition order. -/
structure ExecResult where
  result : Except DBErr TxResp
  state : StoreState
  locks : List Int
deriving DecidableEq

/-- db.go Store.ExecuteTransfer, translated statement by statement.  `gid` is
the value of uuid.New().String(). -/
def ExecuteTransfer (st : StoreState) (fromID toID : Int) (amt : Int)
    (iKey desc txType : String) (gid : String) : ExecResult :=
  if amt ≤ 0 then ⟨.error .InvalidAmount, st, []⟩
  else if iKey = "" then ⟨.error .MissingIdempotency, st, []⟩
  else
    match findByIKey st.entries iKey with
    | e :: es => ⟨.ok ⟨e.txGroupID, iKey, "duplicate", e :: es⟩, st, []⟩
    | [] =>
      match findWallet st.wallets (fstID fromID toID),
            findWallet st.wallets (sndID fromID toID) with
      | none, _ => ⟨.error .WalletNotFound, st, []⟩
      | some _, none => ⟨.error .WalletNotFound, st, [fstID fromID toID]⟩
      | some wFst, some wSnd =>
        if srcBalOf fromID toID wFst wSnd < amt then
          ⟨.error .InsufficientBalance, st, lockList fromID toID⟩
        else if validTxType txType = false then
          ⟨.error .StoreFailure, st, lockList fromID toID⟩
        else if insertConflict st.entries iKey .DEBIT then
          ⟨.error .StoreFailure, st, lockList fromID toID⟩
        else if insertConflict
            (st.entries ++ [mkEntry st.nextEntryID gid iKey fromID .DEBIT amt txType desc])
            iKey .CREDIT then
          ⟨.error .StoreFailure, st, lockList fromID toID⟩
        else
          match applyUpd st.wallets fromID (-amt) with
          | none => ⟨.error .StoreFailure, st, lockList fromID toID⟩
          | some ws1 =>
            match applyUpd ws1 toID amt with
            | none => ⟨.error .StoreFailure, st, lockList fromID toID⟩
            | some ws2 =>
              ⟨.ok ⟨gid, iKey, "created",
                  [mkEntry st.nextEntryID gid iKey fromID .DEBIT amt txType desc,
                   mkEntry (st.nextEntryID + 1) gid iKey toID .CREDIT amt txType desc]⟩,
               ⟨st.assetTypes, ws2,
                st.entries ++
                  [mkEntry st.nextEntryID gid iKey fromID .DEBIT amt txType desc,
                   mkEntry (st.nextEntryID + 1) gid iKey toID .CREDIT amt txType desc],
                st.nextEntryID + 2⟩,
               lockList fromID toID⟩

/-- db.go Store.GetWalletBalance: the JOIN with asset_types yields no row when
either the wallet or its asset type is absent, and pgx.ErrNoRows is mapped to
ErrWalletNotFound. -/
def GetWalletBalance (st : StoreState) (wid : Int) : Except DBErr BalResp :=
  match findWallet st.wallets wid with
  | none => .error .WalletNotFound
  | some w =>
    match findAsset st.assetTypes w.assetTypeID with
    | none => .error .WalletNotFound
    | some a => .ok ⟨w.id, w.ownerID, a.code, w.balance⟩

/-- db.go Store.GetLedgerEntries: SELECT ... WHERE wallet_id = $1
ORDER BY created_at DESC; newest first is the reverse of insertion order.
An empty result is returned as an empty list, never as an error. -/
def GetLedgerEntries (st : StoreState) (wid : Int) : List LedgerEntry :=
  (st.entries.filter (fun e => e.walletID == wid)).reverse

/-- db.go Store.GetWalletByOwnerAndAsset: SELECT w.* FROM wallets w JOIN
asset_types a ON a.id = w.asset_type_id WHERE w.owner_id = $1 AND a.code = $2. -/
def GetWalletByOwnerAndAsset (st : StoreState) (ownerID : Int) (asset : String) :
    Except DBErr Wallet :=
  match st.wallets.find? (fun w =>
      w.ownerID == ownerID &&
        (match findAsset st.assetTypes w.assetTypeID with
         | some a => a.code == asset
         | none => false)) with
  | none => .error .WalletNotFound
  | some w => .ok w

/-- db.go Store.GetTreasuryWallet: GetWalletByOwnerAndAsset with owner id 1. -/
def GetTreasuryWallet (st : StoreState) (asset : String) : Except DBErr Wallet :=
  GetWalletByOwnerAndAsset st 1 asset

/-- Responses produced by the HTTP handler layer (handler.go js calls). -/
inductive HandlerResp where
  | badRequest (msg : String)
  | notFound (msg : String)
  | internalError
  | ok (code : Nat) (resp : TxResp)
deriving DecidableEq

/-- handler.go transfer, default description: desc := req.Desc; if empty,
txType + " transaction". -/
def defaultDesc (d txType : String) : String :=
  if d = "" then txType ++ " transaction" else d

/-- handler.go transfer, tail after wallet resolution: the ExecuteTransfer call
and the mapping of its outcome to an HTTP response (201 on "created", 200 on
"duplicate"). -/
def Handler.finish (st : StoreState) (fromID toID : Int) (amt : Int)
    (iKey desc txType gid : String) : HandlerResp × StoreState :=
  let r := ExecuteTransfer st fromID toID amt iKey desc txType gid
  match r.result with
  | .error .InsufficientBalance => (.badRequest "insufficient balance", r.state)
  | .error .WalletNotFound => (.notFound "wallet not found", r.state)
  | .error .InvalidAmount => (.badRequest "amount must be positive", r.state)
  | .error .MissingIdempotency => (.badRequest "idempotency_key is required", r.state)
  | .error .StoreFailure => (.internalError, r.state)
  | .ok resp => (.ok (if resp.status = "duplicate" then 200 else 201) resp, r.state)

/-- handler.go transfer: request validation, wallet resolution (user wallet and
treasury wallet), direction selection by userIsSrc, then the engine call. -/
def Handler.transfer (st : StoreState) (req : TxReq) (txType : String)
    (userIsSrc : Bool) (gid : String) : HandlerResp × StoreState :=
  if req.idempotencyKey = "" then (.badRequest "idempotency_key is required", st)
  else if req.userID = 0 then (.badRequest "user_id is required", st)
  else if req.assetCode = "" then (.badRequest "asset_code is required", st)
  else if req.amount ≤ 0 then (.badRequest "amount must be positive", st)
  else
    match GetWalletByOwnerAndAsset st req.userID req.assetCode with
    | .error .WalletNotFound => (.notFound "user wallet not found", st)
    | .error _ => (.internalError, st)
    | .ok uw =>
      match GetTreasuryWallet st req.assetCode with
      | .error .WalletNotFound => (.notFound "treasury wallet not found for asset", st)
      | .error _ => (.internalError, st)
      | .ok tw =>
        Handler.finish st (if userIsSrc then uw.id else tw.id)
          (if userIsSrc then tw.id else uw.id) req.amount req.idempotencyKey
          (defaultDesc req.desc txType) txType gid

/-- handler.go TopUp: transfer with txType TOPUP, treasury is the source. -/
def Handler.TopUp (st : StoreState) (req : TxReq) (gid : String) :
    HandlerResp × StoreState :=
  Handler.transfer st req "TOPUP" false gid

/-- handler.go Bonus: transfer with txType BONUS, treasury is the source. -/
def Handler.Bonus (st : StoreState) (req : TxReq) (gid : String) :
    HandlerResp × StoreState :=
  Handler.transfer st req "BONUS" false gid

/-- handler.go Spend: transfer with txType SPEND, the user wallet is the source. -/
def Handler.Spend (st : StoreState) (req : TxReq) (gid : String) :
    HandlerResp × StoreState :=
  Handler.transfer st req "SPEND" true gid

/-- uuid.New() never collides with a stored group id. -/
def gidFresh (st : StoreState) (gid : String) : Prop :=
  ∀ e ∈ st.entries, e.txGroupID ≠ gid

instance (st : StoreState) (gid : String) : Decidable (gidFresh st gid) := by
  unfold gidFresh; infer_instance

/-- One engine invocation against the shared store. -/
inductive TxStep : StoreState → StoreState → Prop where
  | transfer {st : StoreState} (fromID toID : Int) (amt : Int)
      (iKey desc txType gid : String) (hfresh : gidFresh st gid) :
      TxStep st (ExecuteTransfer st fromID toID amt iKey desc txType gid).state

/-- States reachable by a sequence of ExecuteTransfer calls. -/
def Reachable (init st : StoreState) : Prop :=
  Relation.ReflTransGen TxStep init st

/-- Signed contribution of a ledger entry to the balance of its wallet. -/
def entryVal (e : LedgerEntry) : Int :=
  match e.entryType with
  | .CREDIT => e.amount
  | .DEBIT => -e.amount

/-- Sum of CREDIT amounts minus sum of DEBIT amounts over the entries of one
wallet. -/
def entrySum (es : List LedgerEntry) (wid : Int) : Int :=
  ((es.filter (fun e => e.walletID == wid)).map entryVal).sum

/-- Invariant: every cached wallet balance equals the signed ledger sum. -/
def BalInv (st : StoreState) : Prop :=
  ∀ w ∈ st.wallets, w.balance = entrySum st.entries w.id

instance (st : StoreState) : Decidable (BalInv st) := by
  unfold BalInv; infer_instance

/-- Number of ledger entries carrying a given group id and entry type. -/
def gidCount (es : List LedgerEntry) (g : String) (t : EntryType) : Nat :=
  (es.filter (fun e => e.txGroupID == g && e.entryType == t)).length

/-- Invariant: every used transaction-group id has exactly one CREDIT and one
DEBIT entry, and all entries of a group share amount and idempotency key. -/
def GroupInv (st : StoreState) : Prop :=
  ∀ e ∈ st.entries,
    gidCount st.entries e.txGroupID .CREDIT = 1 ∧
    gidCount st.entries e.txGroupID .DEBIT = 1 ∧
    ∀ e2 ∈ st.entries, e2.txGroupID = e.txGroupID →
      e2.amount = e.amount ∧ e2.idempotencyKey = e.idempotencyKey

instance (st : StoreState) : Decidable (GroupInv st) := by
  unfold GroupInv; infer_instance

/-- The database contents produced by seed.sql (balances after the four seed
transfers; ledger ids 1 to 8 in insertion order). -/
def seedSt : StoreState :=
  { assetTypes :=
      [⟨1, "GOLD_COINS", "Gold Coins"⟩, ⟨2, "DIAMONDS", "Diamonds"⟩,
       ⟨3, "LOYALTY_POINTS", "Loyalty Points"⟩]
    wallets :=
      [⟨1, 1, 1, 99997450⟩, ⟨2, 1, 2, 100000000⟩, ⟨3, 1, 3, 100000000⟩,
       ⟨4, 2, 1, 1000⟩, ⟨5, 2, 2, 500⟩, ⟨6, 2, 3, 0⟩,
       ⟨7, 3, 1, 750⟩, ⟨8, 3, 2, 0⟩, ⟨9, 3, 3, 300⟩]
    entries :=
      [⟨1, "a0000000-0000-0000-0000-000000000001", "seed-alice-gold", 1, .DEBIT, 1000,
         "BONUS", "Seed: initial Gold Coins for Alice"⟩,
       ⟨2, "a0000000-0000-0000-0000-000000000001", "seed-alice-gold", 4, .CREDIT, 1000,
         "BONUS", "Seed: initial Gold Coins for Alice"⟩,
       ⟨3, "a0000000-0000-0000-0000-000000000002", "seed-alice-diamonds", 1, .DEBIT, 500,
         "BONUS", "Seed: initial Diamonds for Alice"⟩,
       ⟨4, "a0000000-0000-0000-0000-000000000002", "seed-alice-diamonds", 5, .CREDIT, 500,
         "BONUS", "Seed: initial Diamonds for Alice"⟩,
       ⟨5, "a0000000-0000-0000-0000-000000000003", "seed-bob-gold", 1, .DEBIT, 750,
         "BONUS", "Seed: initial Gold Coins for Bob"⟩,
       ⟨6, "a0000000-0000-0000-0000-000000000003", "seed-bob-gold", 7, .CREDIT, 750,
         "BONUS", "Seed: initial Gold Coins for Bob"⟩,
       ⟨7, "a0000000-0000-0000-0000-000000000004", "seed-bob-loyalty", 1, .DEBIT, 300,
         "BONUS", "Seed: initial Loyalty Points for Bob"⟩,
       ⟨8, "a0000000-0000-0000-0000-000000000004", "seed-bob-loyalty", 9, .CREDIT, 300,
         "BONUS", "Seed: initial Loyalty Points for Bob"⟩]
    nextEntryID := 9 }

/-- A small consistent state (one funded wallet, one empty wallet, one balanced
seed group whose DEBIT sits on an external mint account): satisfies BalInv,
GroupInv and non-negativity.  Used to instantiate hypotheses of the invariant
theorems. -/
def testSt : StoreState :=
  { assetTypes := [⟨1, "GOLD_COINS", "Gold Coins"⟩]
    wallets := [⟨1, 1, 1, 100⟩, ⟨2, 2, 1, 0⟩]
    entries :=
      [⟨1, "g0", "k0", 3, .DEBIT, 100, "TOPUP", "mint"⟩,
       ⟨2, "g0", "k0", 1, .CREDIT, 100, "TOPUP", "mint"⟩]
    nextEntryID := 3 }

/-- The seed ledger pair for key seed-alice-gold as findByIKey returns it:
ORDER BY entry_type puts the CREDIT row (wallet 4) before the DEBIT row
(wallet 1). -/
def dupRespSeed : TxResp :=
  ⟨"a0000000-0000-0000-0000-000000000001", "seed-alice-gold", "duplicate",
   [⟨2, "a0000000-0000-0000-0000-000000000001", "seed-alice-gold", 4, .CREDIT, 1000,
      "BONUS", "Seed: initial Gold Coins for Alice"⟩,
    ⟨1, "a0000000-0000-0000-0000-000000000001", "seed-alice-gold", 1, .DEBIT, 1000,
      "BONUS", "Seed: initial Gold Coins for Alice"⟩]⟩

/-! Basic facts about the modelled SQL statements. -/

theorem updRow_id (wid d : Int) (w : Wallet) : (updRow wid d w).id = w.id := by
  unfold updRow; split <;> rfl

theorem updRow_balance (wid d : Int) (w : Wallet) :
    (updRow wid d w).balance = w.balance + (if w.id = wid then d else 0) := by
  unfold updRow; split <;> simp

theorem applyUpd_eq_some {ws ws' : List Wallet} {wid d : Int}
    (h : applyUpd ws wid d = some ws') :
    ws' = ws.map (updRow wid d) ∧
      ∀ w ∈ ws', w.id = wid → 0 ≤ w.balance ∧ w.balance ≤ maxInt64 := by
  unfold applyUpd at h
  split at h
  · rename_i hall
    cases h
    exact ⟨rfl, hall⟩
  · cases h

theorem applyUpd_of {ws : List Wallet} {wid d : Int}
    (h : ∀ w ∈ ws, w.id = wid → 0 ≤ w.balance + d ∧ w.balance + d ≤ maxInt64) :
    applyUpd ws wid d = some (ws.map (updRow wid d)) := by
  unfold applyUpd
  rw [if_pos]
  intro w hw hid
  rcases List.mem_map.1 hw with ⟨w0, hw0, rfl⟩
  rw [updRow_id] at hid
  have h0 := h w0 hw0 hid
  rw [updRow_balance, if_pos hid]
  exact h0

theorem applyUpd_nonneg {ws ws' : List Wallet} {wid d : Int}
    (h : applyUpd ws wid d = some ws') (hws : ∀ w ∈ ws, 0 ≤ w.balance) :
    ∀ w ∈ ws', 0 ≤ w.balance := by
  obtain ⟨rfl, hall⟩ := applyUpd_eq_some h
  intro w hw
  rcases List.mem_map.1 hw with ⟨w0, hw0, rfl⟩
  by_cases hid : w0.id = wid
  · exact (hall _ (List.mem_map_of_mem _ hw0) (by rw [updRow_id]; exact hid)).1
  · rw [updRow_balance, if_neg hid, add_zero]
    exact hws w0 hw0

theorem findWallet_mem {ws : List Wallet} {wid : Int} {w : Wallet}
    (h : findWallet ws wid = some w) : w ∈ ws ∧ w.id = wid := by
  unfold findWallet at h
  refine ⟨List.mem_of_find?_eq_some h, ?_⟩
  have := List.find?_some h
  exact beq_iff_eq.1 this

theorem findByIKey_eq_nil {es : List LedgerEntry} {key : String}
    (h : findByIKey es key = []) : ∀ e ∈ es, e.idempotencyKey ≠ key := by
  unfold findByIKey at h
  rcases List.append_eq_nil.1 h with ⟨hc, hd⟩
  intro e he hk
  have hmem : e ∈ es.filter (fun e => e.idempotencyKey == key) :=
    List.mem_filter.2 ⟨he, by simp [hk]⟩
  cases het : e.entryType
  · have : e ∈ (es.filter (fun e => e.idempotencyKey == key)).filter
        (fun e => e.entryType == EntryType.CREDIT) :=
      List.mem_filter.2 ⟨hmem, by simp [het]⟩
    rw [hc] at this
    cases this
  · have : e ∈ (es.filter (fun e => e.idempotencyKey == key)).filter
        (fun e => e.entryType == EntryType.DEBIT) :=
      List.mem_filter.2 ⟨hmem, by simp [het]⟩
    rw [hd] at this
    cases this

theorem insertConflict_false {es : List LedgerEntry} {key : String} {t : EntryType}
    (h : ∀ e ∈ es, e.idempotencyKey ≠ key) : insertConflict es key t = false := by
  unfold insertConflict
  rw [List.any_eq_false]
  intro e he
  simp only [Bool.and_eq_true, beq_iff_eq, not_and]
  intro hk
  exact absurd hk (h e he)

theorem fstID_le_sndID (a b : Int) : fstID a b ≤ sndID a b := by
  unfold fstID sndID; split <;> omega

theorem srcBal_wallet {ws : List Wallet} {a b : Int} {wF wS : Wallet}
    (hlo : findWallet ws (fstID a b) = some wF)
    (hhi : findWallet ws (sndID a b) = some wS) :
    findWallet ws a = some (if a = sndID a b then wS else wF) ∧
      srcBalOf a b wF wS = (if a = sndID a b then wS else wF).balance := by
  constructor
  · unfold fstID sndID at *
    by_cases hab : a > b
    · simp only [if_pos hab] at hlo hhi ⊢
      simpa using hhi
    · simp only [if_neg hab] at hlo hhi ⊢
      by_cases heq : a = b
      · rw [if_pos heq]
        subst heq
        exact hhi
      · rw [if_neg heq]
        exact hlo
  · unfold srcBalOf
    split <;> rfl

theorem locked_wallets {ws : List Wallet} {a b : Int} {wF wS : Wallet}
    (ha : findWallet ws a = some wF) (hb : findWallet ws b = some wS) :
    findWallet ws (fstID a b) = some (if a > b then wS else wF) ∧
      findWallet ws (sndID a b) = some (if a > b then wF else wS) := by
  unfold fstID sndID
  by_cases hab : a > b <;> simp [hab, ha, hb]

theorem srcBalOf_locked (a b : Int) (wF wS : Wallet) (hcase : a = b → wF = wS) :
    srcBalOf a b (if a > b then wS else wF) (if a > b then wF else wS) = wF.balance := by
  unfold srcBalOf sndID
  by_cases hab : a > b
  · simp [hab]
  · simp only [if_neg hab]
    by_cases heq : a = b
    · rw [if_pos heq, hcase heq]
    · rw [if_neg heq]

theorem same_lookup {ws : List Wallet} {a b : Int} {wF wS : Wallet}
    (ha : findWallet ws a = some wF) (hb : findWallet ws b = some wS) :
    a = b → wF = wS := by
  intro heq
  rw [heq] at ha
  exact Option.some.inj (ha.symm.trans hb)

theorem insertConflict_append {es : List LedgerEntry} {e2 : LedgerEntry}
    {key : String} {t : EntryType} (h : insertConflict es key t = false)
    (h2 : (e2.idempotencyKey == key && e2.entryType == t) = false) :
    insertConflict (es ++ [e2]) key t = false := by
  unfold insertConflict at *
  rw [List.any_append, h]
  simp [h2]

/-! Forward computation lemmas: the value of ExecuteTransfer on each path. -/

/-- The duplicate path: with valid amount and key, existing entries for the
idempotency key are returned unchanged, with status duplicate and the group id
of the first entry in entry-type order. -/
theorem exec_dup {st : StoreState} {fromID toID amt : Int}
    {iKey desc txType gid : String} {e : LedgerEntry} {es : List LedgerEntry}
    (h0 : 0 < amt) (hk : iKey ≠ "")
    (hdup : findByIKey st.entries iKey = e :: es) :
    ExecuteTransfer st fromID toID amt iKey desc txType gid =
      ⟨.ok ⟨e.txGroupID, iKey, "duplicate", e :: es⟩, st, []⟩ := by
  unfold ExecuteTransfer
  rw [if_neg (by omega), if_neg hk, hdup]

/-- The InsufficientBalance path: validation passed, no duplicate, both wallets
locked, source balance below the amount. -/
theorem exec_insufficient {st : StoreState} {fromID toID amt : Int}
    {iKey desc txType gid : String} {wF wS : Wallet}
    (h0 : 0 < amt) (hk : iKey ≠ "")
    (hdup : findByIKey st.entries iKey = [])
    (hwF : findWallet st.wallets fromID = some wF)
    (hwS : findWallet st.wallets toID = some wS)
    (hlt : wF.balance < amt) :
    ExecuteTransfer st fromID toID amt iKey desc txType gid =
      ⟨.error .InsufficientBalance, st, lockList fromID toID⟩ := by
  obtain ⟨hlo, hhi⟩ := locked_wallets hwF hwS
  have hsrc := srcBalOf_locked fromID toID wF wS (same_lookup hwF hwS)
  unfold ExecuteTransfer
  rw [if_neg (by omega), if_neg hk, hdup]
  simp only [hlo, hhi]
  rw [hsrc, if_pos hlt]

/-- The commit path: all conditions hold, both inserts and both updates
succeed, the transaction commits. -/
theorem exec_success_eq {st : StoreState} {fromID toID amt : Int}
    {iKey desc txType gid : String} {wF wS : Wallet}
    (h0 : 0 < amt) (hk : iKey ≠ "")
    (hdup : findByIKey st.entries iKey = [])
    (hwF : findWallet st.wallets fromID = some wF)
    (hwS : findWallet st.wallets toID = some wS)
    (hbal : amt ≤ wF.balance)
    (ht : validTxType txType = true)
    (hupd1 : ∀ w ∈ st.wallets, w.id = fromID →
      0 ≤ w.balance + -amt ∧ w.balance + -amt ≤ maxInt64)
    (hupd2 : ∀ w ∈ st.wallets.map (updRow fromID (-amt)), w.id = toID →
      0 ≤ w.balance + amt ∧ w.balance + amt ≤ maxInt64) :
    ExecuteTransfer st fromID toID amt iKey desc txType gid =
      ⟨.ok ⟨gid, iKey, "created",
          [mkEntry st.nextEntryID gid iKey fromID .DEBIT amt txType desc,
           mkEntry (st.nextEntryID + 1) gid iKey toID .CREDIT amt txType desc]⟩,
       ⟨st.assetTypes,
        (st.wallets.map (updRow fromID (-amt))).map (updRow toID amt),
        st.entries ++
          [mkEntry st.nextEntryID gid iKey fromID .DEBIT amt txType desc,
           mkEntry (st.nextEntryID + 1) gid iKey toID .CREDIT amt txType desc],
        st.nextEntryID + 2⟩,
       lockList fromID toID⟩ := by
  obtain ⟨hlo, hhi⟩ := locked_wallets hwF hwS
  have hsrc := srcBalOf_locked fromID toID wF wS (same_lookup hwF hwS)
  have hnk := findByIKey_eq_nil hdup
  have hc1 : insertConflict st.entries iKey .DEBIT = false := insertConflict_false hnk
  have hc2 : insertConflict
      (st.entries ++ [mkEntry st.nextEntryID gid iKey fromID .DEBIT amt txType desc])
      iKey .CREDIT = false :=
    insertConflict_append (insertConflict_false hnk) (by simp [mkEntry])
  have hu1 := applyUpd_of hupd1
  have hu2 := applyUpd_of hupd2
  unfold ExecuteTransfer
  rw [if_neg (by omega), if_neg hk, hdup]
  simp only [hlo, hhi]
  rw [hsrc, if_neg (not_lt.2 hbal), ht, hc1, hc2]
  simp only [if_neg (by decide : ¬ (true = false)), if_neg (by decide : ¬ (false = true)),
    hu1, hu2]

/-- Everything ExecuteTransfer guarantees when it commits. -/
def ExecSuccess (st : StoreState) (fromID toID amt : Int)
    (iKey desc txType gid : String) (r : ExecResult) : Prop :=
  ∃ ws1 ws2,
    0 < amt ∧ iKey ≠ "" ∧ findByIKey st.entries iKey = [] ∧
    applyUpd st.wallets fromID (-amt) = some ws1 ∧
    applyUpd ws1 toID amt = some ws2 ∧
    (∃ wF, findWallet st.wallets fromID = some wF ∧ amt ≤ wF.balance) ∧
    r.result = .ok ⟨gid, iKey, "created",
      [mkEntry st.nextEntryID gid iKey fromID .DEBIT amt txType desc,
       mkEntry (st.nextEntryID + 1) gid iKey toID .CREDIT amt txType desc]⟩ ∧
    r.state = ⟨st.assetTypes, ws2,
      st.entries ++
        [mkEntry st.nextEntryID gid iKey fromID .DEBIT amt txType desc,
         mkEntry (st.nextEntryID + 1) gid iKey toID .CREDIT amt txType desc],
      st.nextEntryID + 2⟩ ∧
    r.locks = lockList fromID toID

/-- Inversion: every call either leaves the state unchanged (and any
successful result is a duplicate built from findByIKey), or commits as
described by ExecSuccess. -/
theorem exec_cases (st : StoreState) (fromID toID amt : Int)
    (iKey desc txType gid : String) :
    ((ExecuteTransfer st fromID toID amt iKey desc txType gid).state = st ∧
      ∀ resp, (ExecuteTransfer st fromID toID amt iKey desc txType gid).result = .ok resp →
        resp.status = "duplicate" ∧ resp.idempotencyKey = iKey ∧
          resp.entries = findByIKey st.entries iKey ∧
          ∀ e0, resp.entries.head? = some e0 → resp.txGroupID = e0.txGroupID) ∨
    ExecSuccess st fromID toID amt iKey desc txType gid
      (ExecuteTransfer st fromID toID amt iKey desc txType gid) := by
  unfold ExecuteTransfer
  split
  · exact .inl ⟨rfl, fun resp hr => by cases hr⟩
  split
  · exact .inl ⟨rfl, fun resp hr => by cases hr⟩
  split
  · rename_i e es hdup0
    refine .inl ⟨rfl, fun resp hr => ?_⟩
    cases hr
    refine ⟨rfl, rfl, hdup0.symm, fun e0 h0 => ?_⟩
    cases h0
    rfl
  rename_i hk hdup
  split
  · exact .inl ⟨rfl, fun resp hr => by cases hr⟩
  · exact .inl ⟨rfl, fun resp hr => by cases hr⟩
  rename_i wFst wSnd hlo hhi
  split
  · exact .inl ⟨rfl, fun resp hr => by cases hr⟩
  rename_i hsb
  split
  · exact .inl ⟨rfl, fun resp hr => by cases hr⟩
  split
  · exact .inl ⟨rfl, fun resp hr => by cases hr⟩
  split
  · exact .inl ⟨rfl, fun resp hr => by cases hr⟩
  split
  · exact .inl ⟨rfl, fun resp hr => by cases hr⟩
  rename_i ws1 hu1
  split
  · exact .inl ⟨rfl, fun resp hr => by cases hr⟩
  rename_i ws2 hu2
  rename_i h0 hk2
  refine .inr ⟨ws1, ws2, by omega, ?_, ?_, hu1, hu2, ?_, rfl, rfl, rfl⟩
  · assumption
  · assumption
  · obtain ⟨hw, hb⟩ := srcBal_wallet hlo hhi
    exact ⟨_, hw, by rw [← hb]; exact not_lt.1 hsb⟩

/-! Invariant preservation. -/

theorem beq_entryType_dc : (EntryType.DEBIT == EntryType.CREDIT) = false := by decide

theorem beq_entryType_cd : (EntryType.CREDIT == EntryType.DEBIT) = false := by decide

theorem beq_entryType_cc : (EntryType.CREDIT == EntryType.CREDIT) = true := by decide

theorem beq_entryType_dd : (EntryType.DEBIT == EntryType.DEBIT) = true := by decide

theorem entrySum_append (es1 es2 : List LedgerEntry) (wid : Int) :
    entrySum (es1 ++ es2) wid = entrySum es1 wid + entrySum es2 wid := by
  simp [entrySum, List.filter_append]

theorem entrySum_pair (n m fromID toID wid amt : Int) (gid iKey t d : String) :
    entrySum [mkEntry n gid iKey fromID .DEBIT amt t d,
              mkEntry m gid iKey toID .CREDIT amt t d] wid =
      (if fromID = wid then -amt else 0) + (if toID = wid then amt else 0) := by
  by_cases h1 : fromID = wid <;> by_cases h2 : toID = wid <;>
    simp [entrySum, mkEntry, entryVal, List.filter_cons, h1, h2]

theorem ite_eq_comm {α : Type} (a b : Int) (x y : α) :
    (if a = b then x else y) = (if b = a then x else y) := by
  by_cases h : a = b
  · rw [if_pos h, if_pos h.symm]
  · rw [if_neg h, if_neg (fun hh => h hh.symm)]

/-- Non-negativity of all balances is preserved by one ExecuteTransfer call. -/
theorem nonneg_exec (st : StoreState) (h : ∀ w ∈ st.wallets, 0 ≤ w.balance)
    (fromID toID amt : Int) (iKey desc txType gid : String) :
    ∀ w ∈ (ExecuteTransfer st fromID toID amt iKey desc txType gid).state.wallets,
      0 ≤ w.balance := by
  rcases exec_cases st fromID toID amt iKey desc txType gid with
    ⟨hst, _⟩ | ⟨ws1, ws2, _, _, _, hu1, hu2, _, _, hstate, _⟩
  · rw [hst]; exact h
  · rw [hstate]
    exact applyUpd_nonneg hu2 (applyUpd_nonneg hu1 h)

/-- BalInv (cached balance equals signed ledger sum) is preserved by one
ExecuteTransfer call, success or failure. -/
theorem balInv_exec (st : StoreState) (hinv : BalInv st)
    (fromID toID amt : Int) (iKey desc txType gid : String) :
    BalInv (ExecuteTransfer st fromID toID amt iKey desc txType gid).state := by
  rcases exec_cases st fromID toID amt iKey desc txType gid with
    ⟨hst, _⟩ | ⟨ws1, ws2, _, _, _, hu1, hu2, _, _, hstate, _⟩
  · rw [hst]; exact hinv
  · rw [hstate]
    intro w hw
    obtain ⟨h1, _⟩ := applyUpd_eq_some hu1
    obtain ⟨h2, _⟩ := applyUpd_eq_some hu2
    subst h1
    subst h2
    rcases List.mem_map.1 hw with ⟨w1, hw1, rfl⟩
    rcases List.mem_map.1 hw1 with ⟨w0, hw0, rfl⟩
    show (updRow toID amt (updRow fromID (-amt) w0)).balance =
      entrySum _ (updRow toID amt (updRow fromID (-amt) w0)).id
    rw [updRow_id, updRow_id, updRow_balance, updRow_balance, updRow_id,
      entrySum_append, entrySum_pair, hinv w0 hw0,
      ite_eq_comm fromID w0.id, ite_eq_comm toID w0.id]
    ring

theorem gidCount_append (es1 es2 : List LedgerEntry) (g : String) (t : EntryType) :
    gidCount (es1 ++ es2) g t = gidCount es1 g t + gidCount es2 g t := by
  simp [gidCount, List.filter_append]

theorem gidCount_ne {es : List LedgerEntry} {g : String} (t : EntryType)
    (h : ∀ e ∈ es, e.txGroupID ≠ g) : gidCount es g t = 0 := by
  unfold gidCount
  rw [List.length_eq_zero, List.filter_eq_nil_iff]
  intro e he
  simp [h e he]

/-- GroupInv is preserved by one ExecuteTransfer call with a fresh group id. -/
theorem groupInv_exec (st : StoreState) (fromID toID amt : Int)
    (iKey desc txType gid : String) (hfresh : gidFresh st gid)
    (hinv : GroupInv st) :
    GroupInv (ExecuteTransfer st fromID toID amt iKey desc txType gid).state := by
  rcases exec_cases st fromID toID amt iKey desc txType gid with
    ⟨hst, _⟩ | ⟨ws1, ws2, _, _, _, _, _, _, _, hstate, _⟩
  · rw [hst]; exact hinv
  · rw [hstate]
    intro e he
    have hDC : ∀ x ∈ [mkEntry st.nextEntryID gid iKey fromID .DEBIT amt txType desc,
        mkEntry (st.nextEntryID + 1) gid iKey toID .CREDIT amt txType desc],
        x.txGroupID = gid ∧ x.amount = amt ∧ x.idempotencyKey = iKey := by
      intro x hx
      simp only [List.mem_cons, List.not_mem_nil, or_false] at hx
      rcases hx with rfl | rfl <;> exact ⟨rfl, rfl, rfl⟩
    have hcntC : gidCount [mkEntry st.nextEntryID gid iKey fromID .DEBIT amt txType desc,
        mkEntry (st.nextEntryID + 1) gid iKey toID .CREDIT amt txType desc] gid .CREDIT = 1 := by
      simp [gidCount, List.filter_cons, mkEntry, beq_entryType_dc, beq_entryType_cc]
    have hcntD : gidCount [mkEntry st.nextEntryID gid iKey fromID .DEBIT amt txType desc,
        mkEntry (st.nextEntryID + 1) gid iKey toID .CREDIT amt txType desc] gid .DEBIT = 1 := by
      simp [gidCount, List.filter_cons, mkEntry, beq_entryType_cd, beq_entryType_dd]
    rcases List.mem_append.1 he with heOld | heNew
    · have hne : e.txGroupID ≠ gid := hfresh e heOld
      have hpair : ∀ x ∈ [mkEntry st.nextEntryID gid iKey fromID .DEBIT amt txType desc,
          mkEntry (st.nextEntryID + 1) gid iKey toID .CREDIT amt txType desc],
          x.txGroupID ≠ e.txGroupID := by
        intro x hx hx2
        exact hne (((hDC x hx).1 ▸ hx2).symm)
      obtain ⟨hc, hd, hp⟩ := hinv e heOld
      refine ⟨?_, ?_, ?_⟩
      · rw [gidCount_append, gidCount_ne _ hpair, hc]
      · rw [gidCount_append, gidCount_ne _ hpair, hd]
      · intro e2 he2 hgid
        rcases List.mem_append.1 he2 with h2o | h2n
        · exact hp e2 h2o hgid
        · exact absurd ((hDC e2 h2n).1 ▸ hgid) (fun hh => hne hh.symm)
    · have hegid : e.txGroupID = gid := (hDC e heNew).1
      have hnilC := @gidCount_ne st.entries gid .CREDIT (fun x hx => hfresh x hx)
      have hnilD := @gidCount_ne st.entries gid .DEBIT (fun x hx => hfresh x hx)
      refine ⟨?_, ?_, ?_⟩
      · rw [hegid, gidCount_append, hnilC, hcntC]
      · rw [hegid, gidCount_append, hnilD, hcntD]
      · intro e2 he2 hgid
        have he2gid : e2.txGroupID = gid := hgid.trans hegid
        rcases List.mem_append.1 he2 with h2o | h2n
        · exact absurd he2gid (hfresh e2 h2o)
        · obtain ⟨_, ha2, hk2⟩ := hDC e2 h2n
          obtain ⟨_, ha1, hk1⟩ := hDC e heNew
          exact ⟨ha2.trans ha1.symm, hk2.trans hk1.symm⟩

/-- Non-negativity of all balances holds in every reachable state. -/
theorem nonneg_reachable {init st : StoreState}
    (h0 : ∀ w ∈ init.wallets, 0 ≤ w.balance) (hr : Reachable init st) :
    ∀ w ∈ st.wallets, 0 ≤ w.balance := by
  unfold Reachable at hr
  induction hr with
  | refl => exact h0
  | tail _ hstep ih =>
    cases hstep with
    | transfer fromID toID amt iKey desc txType gid hfresh =>
      exact nonneg_exec _ ih fromID toID amt iKey desc txType gid

/-- GroupInv holds in every reachable state. -/
theorem groupInv_reachable {init st : StoreState}
    (h0 : GroupInv init) (hr : Reachable init st) : GroupInv st := by
  unfold Reachable at hr
  induction hr with
  | refl => exact h0
  | tail _ hstep ih =>
    cases hstep with
    | transfer fromID toID amt iKey desc txType gid hfresh =>
      exact groupInv_exec _ fromID toID amt iKey desc txType gid hfresh ih

/-! Further facts about findByIKey. -/

theorem findByIKey_mem_key {es : List LedgerEntry} {k : String} :
    ∀ e ∈ findByIKey es k, e.idempotencyKey = k := by
  intro e he
  unfold findByIKey at he
  simp only [List.mem_append, List.mem_filter, beq_iff_eq] at he
  rcases he with ⟨⟨_, hk⟩, _⟩ | ⟨⟨_, hk⟩, _⟩ <;> exact hk

theorem findByIKey_split (es : List LedgerEntry) (k : String) :
    ∃ cs ds, findByIKey es k = cs ++ ds ∧
      (∀ e ∈ cs, e.entryType = .CREDIT) ∧ (∀ e ∈ ds, e.entryType = .DEBIT) := by
  refine ⟨_, _, rfl, ?_, ?_⟩
  all_goals
    intro e he
    simp only [List.mem_filter, beq_iff_eq] at he
    exact he.2

/-- BalInv holds in every reachable state if it holds initially. -/
theorem balInv_reachable {init st : StoreState}
    (h0 : BalInv init) (hr : Reachable init st) : BalInv st := by
  unfold Reachable at hr
  induction hr with
  | refl => exact h0
  | tail _ hstep ih =>
    cases hstep with
    | transfer fromID toID amt iKey desc txType gid hfresh =>
      exact balInv_exec _ ih fromID toID amt iKey desc txType gid

/-! Claim theorems. -/

/-- C6 (confirmed): in every execution of ExecuteTransfer the row locks are
taken in ascending wallet-identifier order: the acquired lock list is empty,
the single smaller identifier, or the pair (smaller, larger), regardless of
which wallet is source and which is destination. -/
theorem c6_lock_order (st : StoreState) (fromID toID amt : Int)
    (iKey desc txType gid : String) :
    fstID fromID toID ≤ sndID fromID toID ∧
    ((ExecuteTransfer st fromID toID amt iKey desc txType gid).locks = [] ∨
     (ExecuteTransfer st fromID toID amt iKey desc txType gid).locks =
       [fstID fromID toID] ∨
     (ExecuteTransfer st fromID toID amt iKey desc txType gid).locks =
       [fstID fromID toID, sndID fromID toID]) := by
  refine ⟨fstID_le_sndID fromID toID, ?_⟩
  have hlock : lockList fromID toID = [fstID fromID toID] ∨
      lockList fromID toID = [fstID fromID toID, sndID fromID toID] := by
    unfold lockList
    split
    · exact .inl rfl
    · exact .inr rfl
  unfold ExecuteTransfer
  split
  · exact .inl rfl
  split
  · exact .inl rfl
  split
  · exact .inl rfl
  split
  · exact .inl rfl
  · exact .inr (.inl rfl)
  split
  · exact .inr hlock
  split
  · exact .inr hlock
  split
  · exact .inr hlock
  split
  · exact .inr hlock
  split
  · exact .inr hlock
  split
  · exact .inr hlock
  · exact .inr hlock

/-- C8 (corrected): amount at most 0 always yields InvalidAmount before any
lock or mutation; an empty idempotency key yields MissingIdempotency before
any lock or mutation only when the amount is positive, because the amount
check runs first. -/
theorem c8_validation (st : StoreState) (fromID toID amt : Int)
    (iKey desc txType gid : String) :
    (amt ≤ 0 →
      ExecuteTransfer st fromID toID amt iKey desc txType gid =
        ⟨.error .InvalidAmount, st, []⟩) ∧
    (0 < amt → iKey = "" →
      ExecuteTransfer st fromID toID amt iKey desc txType gid =
        ⟨.error .MissingIdempotency, st, []⟩) := by
  constructor
  · intro h
    unfold ExecuteTransfer
    rw [if_pos h]
  · intro h hk
    unfold ExecuteTransfer
    rw [if_neg (by omega : ¬ amt ≤ 0), if_pos hk]

/-- C8 counterexample: a call with amount 0 and an empty idempotency key fails
with InvalidAmount, not with MissingIdempotency as the claim requires for
every call with an empty key. -/
theorem c8_counterexample :
    ExecuteTransfer seedSt 1 4 0 "" "d" "TOPUP" "b6" =
      ⟨.error .InvalidAmount, seedSt, []⟩ ∧
    DBErr.InvalidAmount ≠ DBErr.MissingIdempotency := by decide

theorem c8_witness :
    ExecuteTransfer seedSt 1 4 (-5) "k" "d" "TOPUP" "b7" =
      ⟨.error .InvalidAmount, seedSt, []⟩ ∧
    ExecuteTransfer seedSt 1 4 5 "" "d" "TOPUP" "b8" =
      ⟨.error .MissingIdempotency, seedSt, []⟩ :=
  ⟨(c8_validation seedSt 1 4 (-5) "k" "d" "TOPUP" "b7").1 (by decide),
   (c8_validation seedSt 1 4 5 "" "d" "TOPUP" "b8").2 (by decide) rfl⟩

/-- C4 (confirmed): if every cached wallet balance equals the signed sum of
that wallet ledger entries in the initial state, the same holds in every
reachable state and after every further completed ExecuteTransfer call,
success or failure. -/
theorem c4_balance_cache (init st : StoreState) (hinv : BalInv init)
    (hr : Reachable init st) (fromID toID amt : Int)
    (iKey desc txType gid : String) :
    BalInv st ∧
    BalInv (ExecuteTransfer st fromID toID amt iKey desc txType gid).state := by
  have hst := balInv_reachable hinv hr
  exact ⟨hst, balInv_exec st hst fromID toID amt iKey desc txType gid⟩

theorem c4_witness :
    BalInv testSt ∧
    BalInv (ExecuteTransfer testSt 1 2 30 "k1" "topup" "TOPUP" "g1").state :=
  c4_balance_cache testSt testSt (by decide) Relation.ReflTransGen.refl
    1 2 30 "k1" "topup" "TOPUP" "g1"

/-- C3 (confirmed): starting from a state with only non-negative balances, no
reachable state has a negative balance; and a validated, non-duplicate call
whose amount exceeds the locked source-wallet balance fails with
InsufficientBalance, leaving the state (balances and ledger entries of both
wallets) unchanged. -/
theorem c3_no_negative (init st : StoreState)
    (h0 : ∀ w ∈ init.wallets, 0 ≤ w.balance) (hr : Reachable init st) :
    (∀ w ∈ st.wallets, 0 ≤ w.balance) ∧
    (∀ (fromID toID amt : Int) (iKey desc txType gid : String) (wF wS : Wallet),
      findWallet st.wallets fromID = some wF →
      findWallet st.wallets toID = some wS →
      iKey ≠ "" → findByIKey st.entries iKey = [] →
      wF.balance < amt →
      ExecuteTransfer st fromID toID amt iKey desc txType gid =
        ⟨.error .InsufficientBalance, st, lockList fromID toID⟩) := by
  have hnn := nonneg_reachable h0 hr
  refine ⟨hnn, ?_⟩
  intro fromID toID amt iKey desc txType gid wF wS hwF hwS hk hdup hlt
  have hmem := (findWallet_mem hwF).1
  have h0a : 0 < amt := lt_of_le_of_lt (hnn wF hmem) hlt
  exact exec_insufficient h0a hk hdup hwF hwS hlt

theorem c3_witness :
    (∀ w ∈ testSt.wallets, 0 ≤ w.balance) ∧
    ExecuteTransfer testSt 1 2 200 "kx" "d" "TOPUP" "gx" =
      ⟨.error .InsufficientBalance, testSt, lockList 1 2⟩ := by
  have h := c3_no_negative testSt testSt (by decide) Relation.ReflTransGen.refl
  exact ⟨h.1, h.2 1 2 200 "kx" "d" "TOPUP" "gx" ⟨1, 1, 1, 100⟩ ⟨2, 2, 1, 0⟩
    (by decide) (by decide) (by decide) (by decide) (by decide)⟩

/-- C5 (confirmed): GroupInv (exactly one CREDIT and one DEBIT per used group
id, equal amount and key) holds in every reachable state; and after every
successful non-duplicate call the fresh group id carries exactly the new DEBIT
entry on the source wallet and the new CREDIT entry on the destination wallet,
with the same amount and idempotency key. -/
theorem c5_group_pairing (init st : StoreState) (h0 : GroupInv init)
    (hr : Reachable init st) :
    GroupInv st ∧
    (∀ (fromID toID amt : Int) (iKey desc txType gid : String) (resp : TxResp),
      gidFresh st gid →
      (ExecuteTransfer st fromID toID amt iKey desc txType gid).result = .ok resp →
      resp.status = "created" →
      resp.txGroupID = gid ∧ resp.idempotencyKey = iKey ∧
      (ExecuteTransfer st fromID toID amt iKey desc txType gid).state.entries.filter
          (fun e => e.txGroupID == gid) =
        [mkEntry st.nextEntryID gid iKey fromID .DEBIT amt txType desc,
         mkEntry (st.nextEntryID + 1) gid iKey toID .CREDIT amt txType desc]) := by
  refine ⟨groupInv_reachable h0 hr, ?_⟩
  intro fromID toID amt iKey desc txType gid resp hfresh hok hstat
  rcases exec_cases st fromID toID amt iKey desc txType gid with
    ⟨_, hdup⟩ | ⟨ws1, ws2, _, _, _, _, _, _, hres, hstate, _⟩
  · have hd := (hdup resp hok).1
    rw [hstat] at hd
    exact absurd hd (by decide)
  · rw [hok] at hres
    have hresp := Except.ok.inj hres
    subst hresp
    refine ⟨rfl, rfl, ?_⟩
    rw [hstate]
    show (st.entries ++ _).filter (fun e => e.txGroupID == gid) = _
    rw [List.filter_append]
    have h1 : st.entries.filter (fun e => e.txGroupID == gid) = [] :=
      List.filter_eq_nil_iff.2 (fun e he => by simp [hfresh e he])
    rw [h1]
    simp [List.filter_cons, mkEntry]

theorem c5_witness :
    GroupInv testSt ∧
    ((⟨"g1", "k1", "created",
        [mkEntry 3 "g1" "k1" 1 .DEBIT 30 "TOPUP" "topup",
         mkEntry 4 "g1" "k1" 2 .CREDIT 30 "TOPUP" "topup"]⟩ : TxResp).txGroupID = "g1" ∧
     (⟨"g1", "k1", "created",
        [mkEntry 3 "g1" "k1" 1 .DEBIT 30 "TOPUP" "topup",
         mkEntry 4 "g1" "k1" 2 .CREDIT 30 "TOPUP" "topup"]⟩ : TxResp).idempotencyKey = "k1" ∧
     (ExecuteTransfer testSt 1 2 30 "k1" "topup" "TOPUP" "g1").state.entries.filter
        (fun e => e.txGroupID == "g1") =
       [mkEntry 3 "g1" "k1" 1 .DEBIT 30 "TOPUP" "topup",
        mkEntry 4 "g1" "k1" 2 .CREDIT 30 "TOPUP" "topup"]) := by
  have h := c5_group_pairing testSt testSt (by decide) Relation.ReflTransGen.refl
  exact ⟨h.1, h.2 1 2 30 "k1" "topup" "TOPUP" "g1"
    ⟨"g1", "k1", "created",
      [mkEntry 3 "g1" "k1" 1 .DEBIT 30 "TOPUP" "topup",
       mkEntry 4 "g1" "k1" 2 .CREDIT 30 "TOPUP" "topup"]⟩
    (by decide) (by decide) rfl⟩

/-- C1 counterexample: the code has no self-transfer check and no
InvalidTransfer error value; on the seed state a transfer from wallet 4 to
wallet 4 with amount 10 succeeds with outcome created and appends two ledger
entries, instead of failing as the claim requires (the balance of wallet 4 is
unchanged). -/
theorem c1_counterexample :
    (ExecuteTransfer seedSt 4 4 10 "ce-self" "self" "TOPUP" "b1").result =
      .ok ⟨"b1", "ce-self", "created",
        [mkEntry 9 "b1" "ce-self" 4 .DEBIT 10 "TOPUP" "self",
         mkEntry 10 "b1" "ce-self" 4 .CREDIT 10 "TOPUP" "self"]⟩ ∧
    (ExecuteTransfer seedSt 4 4 10 "ce-self" "self" "TOPUP" "b1").state.entries.length =
      seedSt.entries.length + 2 ∧
    findWallet (ExecuteTransfer seedSt 4 4 10 "ce-self" "self" "TOPUP" "b1").state.wallets 4 =
      some ⟨4, 2, 1, 1000⟩ := by decide

/-- C1 (corrected): a self-transfer locks the single wallet exactly once (both
FOR UPDATE statements target the same row), and with valid inputs, a fresh
key, and sufficient balance it succeeds with outcome created, appending a
DEBIT and a CREDIT entry on that wallet and leaving every wallet balance
unchanged; no InvalidTransfer failure exists in the code. -/
theorem c1_self_transfer (st : StoreState) (wid amt : Int)
    (iKey desc txType gid : String) (wal : Wallet)
    (h0 : 0 < amt) (hk : iKey ≠ "") (hdup : findByIKey st.entries iKey = [])
    (hw : findWallet st.wallets wid = some wal)
    (hbal : ∀ w ∈ st.wallets, w.id = wid → amt ≤ w.balance ∧ w.balance ≤ maxInt64)
    (ht : validTxType txType = true) :
    (ExecuteTransfer st wid wid amt iKey desc txType gid).locks = [wid] ∧
    (ExecuteTransfer st wid wid amt iKey desc txType gid).result =
      .ok ⟨gid, iKey, "created",
        [mkEntry st.nextEntryID gid iKey wid .DEBIT amt txType desc,
         mkEntry (st.nextEntryID + 1) gid iKey wid .CREDIT amt txType desc]⟩ ∧
    (ExecuteTransfer st wid wid amt iKey desc txType gid).state.wallets = st.wallets ∧
    (ExecuteTransfer st wid wid amt iKey desc txType gid).state.entries =
      st.entries ++
        [mkEntry st.nextEntryID gid iKey wid .DEBIT amt txType desc,
         mkEntry (st.nextEntryID + 1) gid iKey wid .CREDIT amt txType desc] := by
  have hwbal : amt ≤ wal.balance :=
    (hbal wal (findWallet_mem hw).1 (findWallet_mem hw).2).1
  have hupd1 : ∀ w ∈ st.wallets, w.id = wid →
      0 ≤ w.balance + -amt ∧ w.balance + -amt ≤ maxInt64 := by
    intro w hwmem hid
    have := hbal w hwmem hid
    omega
  have hupd2 : ∀ w ∈ st.wallets.map (updRow wid (-amt)), w.id = wid →
      0 ≤ w.balance + amt ∧ w.balance + amt ≤ maxInt64 := by
    intro w hwmem hid
    rcases List.mem_map.1 hwmem with ⟨w0, hw0, rfl⟩
    rw [updRow_id] at hid
    have h1 := hbal w0 hw0 hid
    rw [updRow_balance, if_pos hid]
    omega
  have heq := @exec_success_eq st wid wid amt iKey desc txType gid wal wal
    h0 hk hdup hw hw hwbal ht hupd1 hupd2
  rw [heq]
  refine ⟨?_, rfl, ?_, rfl⟩
  · unfold lockList fstID sndID
    simp
  · show (st.wallets.map (updRow wid (-amt))).map (updRow wid amt) = st.wallets
    rw [List.map_map]
    conv_rhs => rw [← List.map_id st.wallets]
    refine List.map_congr_left (fun w hwmem => ?_)
    by_cases hid : w.id = wid
    · cases w
      simp only [Function.comp_apply, updRow] at hid ⊢
      simp only [if_pos hid]
      simp only [if_pos hid, List.map_id, id]
      congr 1
      omega
    · simp [Function.comp_apply, updRow, hid]

theorem c1_witness :
    (ExecuteTransfer seedSt 4 4 10 "wit-self" "d" "TOPUP" "b2").locks = [4] ∧
    (ExecuteTransfer seedSt 4 4 10 "wit-self" "d" "TOPUP" "b2").result =
      .ok ⟨"b2", "wit-self", "created",
        [mkEntry 9 "b2" "wit-self" 4 .DEBIT 10 "TOPUP" "d",
         mkEntry 10 "b2" "wit-self" 4 .CREDIT 10 "TOPUP" "d"]⟩ ∧
    (ExecuteTransfer seedSt 4 4 10 "wit-self" "d" "TOPUP" "b2").state.wallets =
      seedSt.wallets ∧
    (ExecuteTransfer seedSt 4 4 10 "wit-self" "d" "TOPUP" "b2").state.entries =
      seedSt.entries ++
        [mkEntry 9 "b2" "wit-self" 4 .DEBIT 10 "TOPUP" "d",
         mkEntry 10 "b2" "wit-self" 4 .CREDIT 10 "TOPUP" "d"] :=
  c1_self_transfer seedSt 4 10 "wit-self" "d" "TOPUP" "b2" ⟨4, 2, 1, 1000⟩
    (by decide) (by decide) (by decide) (by decide) (by decide) (by decide)

/-- C2 counterexample: with an existing pair for key seed-alice-gold, a call
reusing that key with amount 0 fails with InvalidAmount instead of returning
the duplicate result, because the amount check runs before the idempotency
lookup: the claimed behaviour does not hold regardless of the amount. -/
theorem c2_counterexample :
    findByIKey seedSt.entries "seed-alice-gold" ≠ [] ∧
    ExecuteTransfer seedSt 1 4 0 "seed-alice-gold" "d" "TOPUP" "b3" =
      ⟨.error .InvalidAmount, seedSt, []⟩ := by decide

/-- C2 (corrected): for every call with a strictly positive amount and a
non-empty idempotency key whose key already has ledger entries, the engine
returns those entries with status duplicate as a successful result, with the
group id of the first stored entry, taking no locks and changing nothing —
regardless of the wallet identifiers, description, or category passed. -/
theorem c2_duplicate_return (st : StoreState) (fromID toID amt : Int)
    (iKey desc txType gid : String) (e : LedgerEntry) (es : List LedgerEntry)
    (h0 : 0 < amt) (hk : iKey ≠ "")
    (hdup : findByIKey st.entries iKey = e :: es) :
    ExecuteTransfer st fromID toID amt iKey desc txType gid =
      ⟨.ok ⟨e.txGroupID, iKey, "duplicate", e :: es⟩, st, []⟩ :=
  exec_dup h0 hk hdup

theorem c2_witness :
    ExecuteTransfer seedSt 9 2 7 "seed-alice-gold" "x" "SPEND" "b4" =
      ⟨.ok dupRespSeed, seedSt, []⟩ :=
  c2_duplicate_return seedSt 9 2 7 "seed-alice-gold" "x" "SPEND" "b4"
    ⟨2, "a0000000-0000-0000-0000-000000000001", "seed-alice-gold", 4, .CREDIT, 1000,
      "BONUS", "Seed: initial Gold Coins for Alice"⟩
    [⟨1, "a0000000-0000-0000-0000-000000000001", "seed-alice-gold", 1, .DEBIT, 1000,
      "BONUS", "Seed: initial Gold Coins for Alice"⟩]
    (by decide) (by decide) (by decide)

/-- C7 counterexample: replaying key seed-alice-gold returns the stored pair
in entry-type order, CREDIT before DEBIT, contradicting the claimed
[DEBIT-entry, CREDIT-entry] order for duplicate outcomes. -/
theorem c7_counterexample :
    (ExecuteTransfer seedSt 4 1 5 "seed-alice-gold" "d" "TOPUP" "b5").result =
      .ok dupRespSeed ∧
    ((ExecuteTransfer seedSt 4 1 5 "seed-alice-gold" "d" "TOPUP" "b5").result.toOption.map
      (fun r => r.entries.map (fun e => e.entryType))) =
      some [.CREDIT, .DEBIT] := by decide

/-- C7 (corrected): every successful result has status created or duplicate;
a created result returns [DEBIT on source, CREDIT on destination] with the
returned group id and key on both entries; a duplicate result returns the
stored entries of the key sorted by entry type (all CREDIT entries before all
DEBIT entries), each carrying the idempotency key, with the returned group id
taken from the first entry of that ordering. -/
theorem c7_entry_order (st : StoreState) (fromID toID amt : Int)
    (iKey desc txType gid : String) (resp : TxResp)
    (hok : (ExecuteTransfer st fromID toID amt iKey desc txType gid).result = .ok resp) :
    (resp.status = "created" ∨ resp.status = "duplicate") ∧
    (resp.status = "created" →
      resp.txGroupID = gid ∧ resp.idempotencyKey = iKey ∧
      resp.entries = [mkEntry st.nextEntryID gid iKey fromID .DEBIT amt txType desc,
                      mkEntry (st.nextEntryID + 1) gid iKey toID .CREDIT amt txType desc]) ∧
    (resp.status = "duplicate" →
      resp.idempotencyKey = iKey ∧
      resp.entries = findByIKey st.entries iKey ∧
      (∀ e ∈ resp.entries, e.idempotencyKey = iKey) ∧
      (∃ cs ds, resp.entries = cs ++ ds ∧ (∀ e ∈ cs, e.entryType = .CREDIT) ∧
        (∀ e ∈ ds, e.entryType = .DEBIT)) ∧
      (∀ e0, resp.entries.head? = some e0 → resp.txGroupID = e0.txGroupID)) := by
  rcases exec_cases st fromID toID amt iKey desc txType gid with
    ⟨_, hdup⟩ | ⟨ws1, ws2, _, _, _, _, _, _, hres, _, _⟩
  · obtain ⟨hstat, hkey, hent, hhead⟩ := hdup resp hok
    refine ⟨.inr hstat, fun hc => ?_, fun _ => ?_⟩
    · rw [hc] at hstat
      exact absurd hstat (by decide)
    · refine ⟨hkey, hent, ?_, ?_, hhead⟩
      · rw [hent]
        exact findByIKey_mem_key
      · rw [hent]
        exact findByIKey_split st.entries iKey
  · rw [hok] at hres
    have hresp := Except.ok.inj hres
    subst hresp
    refine ⟨.inl rfl, fun _ => ⟨rfl, rfl, rfl⟩, fun hd => ?_⟩
    exact absurd (show ("created" : String) = "duplicate" from hd) (by decide)

theorem c7_witness :
    (dupRespSeed.status = "created" ∨ dupRespSeed.status = "duplicate") ∧
    (dupRespSeed.status = "created" →
      dupRespSeed.txGroupID = "b5x" ∧ dupRespSeed.idempotencyKey = "seed-alice-gold" ∧
      dupRespSeed.entries =
        [mkEntry 9 "b5x" "seed-alice-gold" 4 .DEBIT 5 "TOPUP" "d",
         mkEntry 10 "b5x" "seed-alice-gold" 1 .CREDIT 5 "TOPUP" "d"]) ∧
    (dupRespSeed.status = "duplicate" →
      dupRespSeed.idempotencyKey = "seed-alice-gold" ∧
      dupRespSeed.entries = findByIKey seedSt.entries "seed-alice-gold" ∧
      (∀ e ∈ dupRespSeed.entries, e.idempotencyKey = "seed-alice-gold") ∧
      (∃ cs ds, dupRespSeed.entries = cs ++ ds ∧ (∀ e ∈ cs, e.entryType = .CREDIT) ∧
        (∀ e ∈ ds, e.entryType = .DEBIT)) ∧
      (∀ e0, dupRespSeed.entries.head? = some e0 →
        dupRespSeed.txGroupID = e0.txGroupID)) :=
  c7_entry_order seedSt 4 1 5 "seed-alice-gold" "d" "TOPUP" "b5x" dupRespSeed (by decide)

/-- C9 (confirmed): for a wallet identifier not present in the store (with the
ledger respecting the wallet_id foreign key), balance lookup fails with
WalletNotFound while the ledger listing succeeds with the empty list. -/
theorem c9_unknown_wallet (st : StoreState) (wid : Int)
    (habs : ∀ w ∈ st.wallets, w.id ≠ wid)
    (hfk : ∀ e ∈ st.entries, ∃ w ∈ st.wallets, w.id = e.walletID) :
    GetWalletBalance st wid = .error .WalletNotFound ∧
    GetLedgerEntries st wid = [] := by
  have h1 : findWallet st.wallets wid = none := by
    unfold findWallet
    rw [List.find?_eq_none]
    intro w hw
    simp [habs w hw]
  constructor
  · unfold GetWalletBalance
    rw [h1]
  · unfold GetLedgerEntries
    have h2 : st.entries.filter (fun e => e.walletID == wid) = [] := by
      rw [List.filter_eq_nil_iff]
      intro e he
      obtain ⟨w, hw, hid⟩ := hfk e he
      simp [hid ▸ habs w hw]
    rw [h2]
    rfl

theorem c9_witness :
    GetWalletBalance seedSt 99 = .error .WalletNotFound ∧
    GetLedgerEntries seedSt 99 = [] :=
  c9_unknown_wallet seedSt 99 (by decide) (by decide)

theorem getWallet_owner_asset {st : StoreState} {oid : Int} {asset : String}
    {w : Wallet} (h : GetWalletByOwnerAndAsset st oid asset = .ok w) :
    w ∈ st.wallets ∧ w.ownerID = oid ∧
      ∃ a ∈ st.assetTypes, a.id = w.assetTypeID ∧ a.code = asset := by
  unfold GetWalletByOwnerAndAsset at h
  cases hf : st.wallets.find? (fun w =>
      w.ownerID == oid &&
        (match findAsset st.assetTypes w.assetTypeID with
         | some a => a.code == asset
         | none => false)) with
  | none => rw [hf] at h; cases h
  | some w0 =>
    rw [hf] at h
    have hw0 : w0 = w := Except.ok.inj h
    subst hw0
    have hmem := List.mem_of_find?_eq_some hf
    have hp := List.find?_some hf
    simp only [Bool.and_eq_true, beq_iff_eq] at hp
    obtain ⟨ho, hm⟩ := hp
    refine ⟨hmem, ho, ?_⟩
    cases hfa : findAsset st.assetTypes w0.assetTypeID with
    | none => rw [hfa] at hm; cases hm
    | some a =>
      rw [hfa] at hm
      unfold findAsset at hfa
      have hmem2 := List.mem_of_find?_eq_some hfa
      have hpa := List.find?_some hfa
      simp only [beq_iff_eq] at hpa hm
      exact ⟨a, hmem2, hpa, hm⟩

/-- C10 (confirmed): whenever the gateway accepts a transfer request (valid
fields, both wallets resolve), the counterparty is GetTreasuryWallet, the
wallet owned by user id 1 for the requested asset code; TopUp and Bonus call
the engine with the treasury wallet as source and the user wallet as
destination, Spend with the user wallet as source and the treasury wallet as
destination. -/
theorem c10_treasury_counterparty (st : StoreState) (req : TxReq) (gid : String)
    (uw tw : Wallet)
    (hk : req.idempotencyKey ≠ "") (hu0 : req.userID ≠ 0) (ha : req.assetCode ≠ "")
    (hamt : 0 < req.amount)
    (huw : GetWalletByOwnerAndAsset st req.userID req.assetCode = .ok uw)
    (htw : GetTreasuryWallet st req.assetCode = .ok tw) :
    tw.ownerID = 1 ∧
    (∃ a ∈ st.assetTypes, a.id = tw.assetTypeID ∧ a.code = req.assetCode) ∧
    Handler.TopUp st req gid =
      Handler.finish st tw.id uw.id req.amount req.idempotencyKey
        (defaultDesc req.desc "TOPUP") "TOPUP" gid ∧
    Handler.Bonus st req gid =
      Handler.finish st tw.id uw.id req.amount req.idempotencyKey
        (defaultDesc req.desc "BONUS") "BONUS" gid ∧
    Handler.Spend st req gid =
      Handler.finish st uw.id tw.id req.amount req.idempotencyKey
        (defaultDesc req.desc "SPEND") "SPEND" gid := by
  have htw2 : GetWalletByOwnerAndAsset st 1 req.assetCode = .ok tw := htw
  obtain ⟨_, ho, hasset⟩ := getWallet_owner_asset htw2
  refine ⟨ho, hasset, ?_, ?_, ?_⟩
  · show Handler.transfer st req "TOPUP" false gid = _
    unfold Handler.transfer
    rw [if_neg hk, if_neg hu0, if_neg ha, if_neg (by omega : ¬ req.amount ≤ 0),
      huw, htw]
    rfl
  · show Handler.transfer st req "BONUS" false gid = _
    unfold Handler.transfer
    rw [if_neg hk, if_neg hu0, if_neg ha, if_neg (by omega : ¬ req.amount ≤ 0),
      huw, htw]
    rfl
  · show Handler.transfer st req "SPEND" true gid = _
    unfold Handler.transfer
    rw [if_neg hk, if_neg hu0, if_neg ha, if_neg (by omega : ¬ req.amount ≤ 0),
      huw, htw]
    rfl

theorem c10_witness :
    (⟨1, 1, 1, 99997450⟩ : Wallet).ownerID = 1 ∧
    (∃ a ∈ seedSt.assetTypes, a.id = (⟨1, 1, 1, 99997450⟩ : Wallet).assetTypeID ∧
      a.code = "GOLD_COINS") ∧
    Handler.TopUp seedSt ⟨"kz", 2, "GOLD_COINS", 5, ""⟩ "gz" =
      Handler.finish seedSt 1 4 5 "kz" (defaultDesc "" "TOPUP") "TOPUP" "gz" ∧
    Handler.Bonus seedSt ⟨"kz", 2, "GOLD_COINS", 5, ""⟩ "gz" =
      Handler.finish seedSt 1 4 5 "kz" (defaultDesc "" "BONUS") "BONUS" "gz" ∧
    Handler.Spend seedSt ⟨"kz", 2, "GOLD_COINS", 5, ""⟩ "gz" =
      Handler.finish seedSt 4 1 5 "kz" (defaultDesc "" "SPEND") "SPEND" "gz" :=
  c10_treasury_counterparty seedSt ⟨"kz", 2, "GOLD_COINS", 5, ""⟩ "gz"
    ⟨4, 2, 1, 1000⟩ ⟨1, 1, 1, 99997450⟩
    (by decide) (by decide) (by decide) (by decide) (by decide) (by decide)
